import Mathlib

/-!
Shallow embedding of the problem6 real-time scoreboard service
(src/problem6: ScoreboardService.ts, ScoreboardController.ts,
middleware/rateLimit.ts, middleware/auth.ts, CacheService in main.ts).

Conventions of the embedding:
* the Prisma store is a value of type `DB` (score rows, action-log rows,
  user rows); `prisma.$transaction` is embedded as a function that either
  returns the updated `DB` or an error, leaving the `DB` of the caller untouched
  (rollback semantics);
* SHA-256 (`crypto.createHash("sha256")...digest("hex")`) is an
  uninterpreted parameter `H : String → String`; the code only builds the
  digested string and compares digests, so every theorem is parametric in H;
* `new Date()` / wall-clock time is a `Nat` parameter `now`; the ISO
  timestamp string carried by requests is modelled as a `Nat` rendered with
  `toString` where the code feeds it to the hash (JS falsiness of the empty
  string maps to the numeral 0);
* Redis (CacheService) is modelled by explicit fields of `Sys` for the
  scoreboard and user-score keys, and by `RLState` for the rate-limit
  counters, with a `reachable` flag covering connectivity failures.
-/

namespace Scoreboard

/-- One row of the Prisma `Score` model: `userId` is unique, `score` an
integer, `lastUpdated` a timestamp. -/
structure ScoreRow where
  userId : String
  score : Int
  lastUpdated : Nat
deriving Repr, DecidableEq

/-- One row of the Prisma `ActionLog` model; `actionId` carries a unique
constraint in the schema. -/
structure ActionLogRow where
  userId : String
  actionId : String
  scoreIncrement : Int
  actionHash : String
  timestamp : Nat
  ipAddress : Option String
deriving Repr, DecidableEq

/-- One row of the Prisma `User` model (only the fields the scoreboard
reads). -/
structure UserRow where
  id : String
  username : String
deriving Repr, DecidableEq

/-- The durable store. -/
structure DB where
  scores : List ScoreRow
  actionLog : List ActionLogRow
  users : List UserRow
deriving Repr, DecidableEq

/-- Body of POST /api/scoreboard/update (types/index.ts
`ScoreUpdateRequest`); the ISO timestamp string is modelled as a Nat. -/
structure ScoreUpdateRequest where
  actionId : String
  scoreIncrement : Int
  timestamp : Nat
  actionHash : String
deriving Repr, DecidableEq

/-- The string that ScoreboardService.updateScore and
ScoreboardService.generateActionHash feed to SHA-256:
`${actionId}-${scoreIncrement}-${timestamp}` (ScoreboardService.ts:162,240). -/
def hashPayload (actionId : String) (scoreIncrement : Int) (timestamp : Nat) : String :=
  actionId ++ "-" ++ toString scoreIncrement ++ "-" ++ toString timestamp

/-- ScoreboardService.generateActionHash, parametric in the digest
function H standing for hex SHA-256. -/
def generateActionHash (H : String → String) (actionId : String)
    (scoreIncrement : Int) (timestamp : Nat) : String :=
  H (hashPayload actionId scoreIncrement timestamp)

/-- Modelled from the spec: the MAC the specification prescribes for an
action token, `H(secret || nonce || increment || issued_at)` bound under a
server secret.  This definition follows the words of the spec and exists only to
be compared with `generateActionHash`, which is the digest the source
actually computes. -/
def specMac (H : String → String) (secret nonce : String)
    (increment : Int) (issuedAt : Nat) : String :=
  H (secret ++ nonce ++ toString increment ++ toString issuedAt)

/-- prisma.score.findUnique on the unique `userId` column. -/
def findScore (db : DB) (userId : String) : Option ScoreRow :=
  db.scores.find? (fun r => r.userId == userId)

/-- prisma.actionLog.findUnique on the unique `actionId` column, reduced to
the existence test the service uses (ScoreboardService.ts:151-157). -/
def hasAction (db : DB) (actionId : String) : Bool :=
  db.actionLog.any (fun r => r.actionId == actionId)

/-- Errors thrown by ScoreboardService.updateScore and by the Prisma
operations inside its transaction. -/
inductive UpdateError where
  | duplicateAction
  | invalidActionHash
  | invalidScoreIncrement
  | recordNotFound
  | duplicateNonceInTx
deriving Repr, DecidableEq

/-- Successful payload of updateScore (`{userId, newScore, rank}`). -/
structure UpdateOk where
  userId : String
  newScore : Int
  rank : Nat
deriving Repr, DecidableEq

/-- The rank-count query
`count(score > s OR (score = s AND lastUpdated < t)) + 1`
(ScoreboardService.ts:72-84,113-125,201-213). -/
def rankCount (db : DB) (s : Int) (t : Nat) : Nat :=
  db.scores.countP (fun r => decide (s < r.score) || (decide (r.score = s) && decide (r.lastUpdated < t)))

/-- Rank is the count plus one. -/
def rankOf (db : DB) (s : Int) (t : Nat) : Nat :=
  rankCount db s t + 1

/-- The body of `prisma.$transaction` in updateScore
(ScoreboardService.ts:175-198): `tx.score.update` (throws if no row has
this userId) followed by `tx.actionLog.create` (throws if the unique
`actionId` constraint is violated).  Rollback is the `Except.error` branch:
the `DB` of the caller is returned unchanged. -/
def txUpdate (now : Nat) (userId : String) (req : ScoreUpdateRequest)
    (ip : Option String) (db : DB) : Except UpdateError (DB × ScoreRow) :=
  match findScore db userId with
  | none => Except.error UpdateError.recordNotFound
  | some row =>
    let updated : ScoreRow :=
      { row with score := row.score + req.scoreIncrement, lastUpdated := now }
    let db1 : DB :=
      { db with scores := db.scores.map (fun r => if r.userId == userId then updated else r) }
    if hasAction db1 req.actionId then
      Except.error UpdateError.duplicateNonceInTx
    else
      Except.ok
        ({ db1 with
            actionLog := db1.actionLog ++
              [{ userId := userId, actionId := req.actionId,
                 scoreIncrement := req.scoreIncrement,
                 actionHash := req.actionHash, timestamp := req.timestamp,
                 ipAddress := ip }] },
         updated)

/-- ScoreboardService.updateScore (ScoreboardService.ts:143-228), up to and
including the transaction and the rank query; the cache writes that follow
are modelled at the controller level.  The checks appear in source order:
action-id uniqueness, action hash, increment bounds, then the
transaction. -/
def updateScore (H : String → String) (now : Nat) (userId : String)
    (req : ScoreUpdateRequest) (ip : Option String) (db : DB) :
    Except UpdateError (DB × UpdateOk) :=
  if hasAction db req.actionId then
    Except.error UpdateError.duplicateAction
  else if req.actionHash ≠ generateActionHash H req.actionId req.scoreIncrement req.timestamp then
    Except.error UpdateError.invalidActionHash
  else if req.scoreIncrement < 1 ∨ 1000 < req.scoreIncrement then
    Except.error UpdateError.invalidScoreIncrement
  else
    match txUpdate now userId req ip db with
    | Except.error e => Except.error e
    | Except.ok (db1, updated) =>
      Except.ok (db1,
        { userId := userId, newScore := updated.score,
          rank := rankOf db1 updated.score updated.lastUpdated })

/-- A ranking entry as returned by getTopScores
(`{rank, userId, username, score, lastUpdated}`). -/
structure Entry where
  rank : Nat
  userId : String
  username : String
  score : Int
  lastUpdated : Nat
deriving Repr, DecidableEq

/-- Username lookup through the `include user` relation; a missing user row
yields the empty string (well-formed stores always have the row). -/
def usernameOf (db : DB) (uid : String) : String :=
  ((db.users.find? (fun u => u.id == uid)).map (fun u => u.username)).getD ""

/-- The comparison realised by the Prisma query
`orderBy [{score: desc}, {lastUpdated: asc}]` (ScoreboardService.ts:22-25). -/
def scoreLE (a b : ScoreRow) : Bool :=
  decide (b.score < a.score) || (decide (a.score = b.score) && decide (a.lastUpdated ≤ b.lastUpdated))

/-- Insertion of a row into a list already ordered by scoreLE. -/
def insertScore (r : ScoreRow) : List ScoreRow → List ScoreRow
  | [] => [r]
  | x :: xs => if scoreLE r x then r :: x :: xs else x :: insertScore r xs

/-- The ordered scan the database performs for
`orderBy [{score: desc}, {lastUpdated: asc}]`, embedded as an insertion
sort with respect to scoreLE. -/
def sortScores : List ScoreRow → List ScoreRow
  | [] => []
  | x :: xs => insertScore x (sortScores xs)

/-- The `scores.map((score, index) => ({rank: index + 1, ...}))` step
(ScoreboardService.ts:35-41), carrying the running index. -/
def withRanks (db : DB) : Nat → List ScoreRow → List Entry
  | _, [] => []
  | i, r :: rs =>
    { rank := i + 1, userId := r.userId, username := usernameOf db r.userId,
      score := r.score, lastUpdated := r.lastUpdated } :: withRanks db (i + 1) rs

/-- The database path of getTopScores: ordered scan, `take limit`, rank
numbering. -/
def computeTop (db : DB) (limit : Nat) : List Entry :=
  withRanks db 0 ((sortScores db.scores).take limit)

/-- Mutable system state seen by the service and controller: the store plus
the CacheService keys `scoreboard:top10` and `user:<id>:score`, and the
list of scoreboard broadcasts handed to the WebSocket service. -/
structure Sys where
  db : DB
  cacheTop : Option (List Entry)
  cacheUser : List (String × Int)
  broadcasts : List (List Entry)
deriving Repr, DecidableEq

/-- ScoreboardService.getTopScores (ScoreboardService.ts:7-53): for
limit 10 serve the cached scoreboard when present, otherwise query, rank
and (for limit 10) fill the cache. -/
def getTopScores (sys : Sys) (limit : Nat) : List Entry × Sys :=
  if limit = 10 then
    match sys.cacheTop with
    | some c => (c, sys)
    | none =>
      let r := computeTop sys.db limit
      (r, { sys with cacheTop := some r })
  else
    (computeTop sys.db limit, sys)

/-- cacheService.setex on `user:<id>:score`: overwrite the key. -/
def setUserCache (l : List (String × Int)) (uid : String) (s : Int) :
    List (String × Int) :=
  (l.filter (fun p => p.1 ≠ uid)) ++ [(uid, s)]

/-- Payload of GET /api/scoreboard/user/:userId. -/
structure UserScoreData where
  userId : String
  username : String
  score : Int
  rank : Nat
  totalUsers : Nat
deriving Repr, DecidableEq

/-- ScoreboardService.getUserScore (ScoreboardService.ts:59-141).  The
cache-hit branch computes the rank with `lastUpdated < new Date()`
(ScoreboardService.ts:79), i.e. against `now`; the cache-miss branch uses
the own `lastUpdated` of the row (ScoreboardService.ts:120) and then fills the
user-score cache. -/
def getUserScore (now : Nat) (userId : String) (sys : Sys) :
    Option UserScoreData × Sys :=
  match (sys.cacheUser.find? (fun p => p.1 == userId)) with
  | some p =>
    match sys.db.users.find? (fun u => u.id == userId) with
    | none => (none, sys)
    | some u =>
      (some { userId := userId, username := u.username, score := p.2,
              rank := rankOf sys.db p.2 now, totalUsers := sys.db.users.length },
       sys)
  | none =>
    match findScore sys.db userId with
    | none => (none, sys)
    | some row =>
      (some { userId := row.userId, username := usernameOf sys.db row.userId,
              score := row.score, rank := rankOf sys.db row.score row.lastUpdated,
              totalUsers := sys.db.users.length },
       { sys with cacheUser := setUserCache sys.cacheUser userId row.score })

/-- HTTP-level outcome of the update route. -/
inductive HttpOut where
  | ok (status : Nat) (data : UpdateOk)
  | err (status : Nat) (code : String)
deriving Repr, DecidableEq

/-- The error-message dispatch of ScoreboardController.updateScore
(ScoreboardController.ts:78-84): substring matching on the thrown
message. -/
def errorCodeOf : UpdateError → String
  | UpdateError.duplicateAction => "DUPLICATE_ACTION"
  | UpdateError.invalidActionHash => "INVALID_ACTION_HASH"
  | UpdateError.invalidScoreIncrement => "INVALID_SCORE_INCREMENT"
  | UpdateError.recordNotFound => "SCORE_UPDATE_FAILED"
  | UpdateError.duplicateNonceInTx => "SCORE_UPDATE_FAILED"

/-- The shape check of ScoreboardController.updateScore
(ScoreboardController.ts:49): JS falsiness of each field (empty string, or
the numeral 0 for the modelled timestamp and increment). -/
def missingFields (req : ScoreUpdateRequest) : Bool :=
  req.actionId == "" || req.scoreIncrement == 0 || req.timestamp == 0 || req.actionHash == ""

/-- ScoreboardController.updateScore (ScoreboardController.ts:39-94)
composed with the service: shape check, service call, then on success the
cache invalidations and user-score refresh of ScoreboardService.ts:216-220
followed by the broadcast of a fresh getTopScores(10)
(ScoreboardController.ts:71-72).  Every error reply uses HTTP status 400
(ScoreboardController.ts:86). -/
def controllerUpdateScore (H : String → String) (now : Nat) (userId : String)
    (req : ScoreUpdateRequest) (ip : Option String) (sys : Sys) :
    HttpOut × Sys :=
  if missingFields req then
    (HttpOut.err 400 "MISSING_FIELDS", sys)
  else
    match updateScore H now userId req ip sys.db with
    | Except.error e => (HttpOut.err 400 (errorCodeOf e), sys)
    | Except.ok (db1, res) =>
      let sys1 : Sys :=
        { db := db1, cacheTop := none,
          cacheUser := setUserCache sys.cacheUser userId res.newScore,
          broadcasts := sys.broadcasts }
      let top := getTopScores sys1 10
      (HttpOut.ok 200 res,
       { top.2 with broadcasts := top.2.broadcasts ++ [top.1] })

/-- CacheService-backed rate-limit counters; `reachable := false` models a
Redis connectivity failure (every operation throws and is caught inside
CacheService, main.ts:1237-1259). -/
structure RLState where
  counters : List (String × Nat)
  reachable : Bool
deriving Repr, DecidableEq

/-- CacheService.getRateLimit (main.ts:1237-1246): read
`rate_limit:<key>`, defaulting to 0 on a missing key and on any cache
error. -/
def getRateLimit (c : RLState) (key : String) : Nat :=
  if c.reachable then
    (((c.counters.find? (fun p => p.1 == "rate_limit:" ++ key)).map Prod.snd).getD 0)
  else 0

/-- CacheService.incrementRateLimit (main.ts:1248-1259): INCR the key; on a
cache error the exception is caught and the state is unchanged. -/
def incrementRateLimit (c : RLState) (key : String) : RLState :=
  if c.reachable then
    { c with counters :=
        match c.counters.find? (fun p => p.1 == "rate_limit:" ++ key) with
        | some p =>
          c.counters.map (fun q => if q.1 == "rate_limit:" ++ key then (q.1, p.2 + 1) else q)
        | none => c.counters ++ [("rate_limit:" ++ key, 1)] }
  else c

/-- Outcome of the handler made by RateLimitMiddleware.create. -/
inductive RLOutcome where
  | allowed
  | limited
deriving Repr, DecidableEq

/-- RateLimitMiddleware.create (rateLimit.ts:11-45): read the current
count, reply 429 when `currentCount >= maxRequests`, otherwise increment
and let the request through. -/
def rateLimitStep (maxRequests : Nat) (key : String) (c : RLState) :
    RLOutcome × RLState :=
  let currentCount := getRateLimit c key
  if maxRequests ≤ currentCount then (RLOutcome.limited, c)
  else (RLOutcome.allowed, incrementRateLimit c key)

/-- The user object the auth middleware attaches to the request
(auth.ts:32-36), modelled as the JS property list actually set there. -/
def authUser (userId username email : String) : List (String × String) :=
  [("userId", userId), ("username", username), ("email", email)]

/-- JS property access `user?.<k>` on the attached user object. -/
def userProp (user : Option (List (String × String))) (k : String) : Option String :=
  user.bind (fun props => (props.find? (fun p => p.1 == k)).map Prod.snd)

/-- The keyGenerator of rateLimiters.scoreUpdate (rateLimit.ts:70-73):
the literal rate_limit:score_update: followed by the user id property when present and by the fallback anonymous otherwise. -/
def scoreUpdateKey (user : Option (List (String × String))) : String :=
  "rate_limit:score_update:" ++ ((userProp user "id").getD "anonymous")

/-- One invocation of ScoreboardService.updateScore: wall-clock time,
authenticated identity, request body, client address. -/
structure Call where
  now : Nat
  userId : String
  req : ScoreUpdateRequest
  ip : Option String
deriving Repr, DecidableEq

/-- Sequential execution of updateScore calls against the store: an error
leaves the store untouched (the transaction rolled back before any write
became visible), a success carries the new store forward. -/
def runCalls (H : String → String) (db : DB) : List Call → DB
  | [] => db
  | c :: rest =>
    match updateScore H c.now c.userId c.req c.ip db with
    | Except.error _ => runCalls H db rest
    | Except.ok (db1, _) => runCalls H db1 rest

/-- Number of calls carrying actionId n that the service accepts along a
sequential run starting from db. -/
def acceptedWith (H : String → String) (db : DB) (n : String) : List Call → Nat
  | [] => 0
  | c :: rest =>
    match updateScore H c.now c.userId c.req c.ip db with
    | Except.error _ => acceptedWith H db n rest
    | Except.ok (db1, _) =>
      (if c.req.actionId = n then 1 else 0) + acceptedWith H db1 n rest

/-- Whole-world state: store + caches + rate-limit counters. -/
structure World where
  sys : Sys
  rl : RLState
deriving Repr, DecidableEq

/-- POST /api/scoreboard/update end to end (main.ts:511-512 preHandler
`[authenticateToken, rateLimiters.scoreUpdate]` then the controller): the
authenticated identity is `uid`; the rate limiter replies 429 with the
plain error string of rateLimit.ts:23-28 and stops the pipeline. -/
def handleUpdate (H : String → String) (now : Nat)
    (uid username email : String) (req : ScoreUpdateRequest)
    (ip : Option String) (w : World) : HttpOut × World :=
  let user := authUser uid username email
  let step := rateLimitStep 10 (scoreUpdateKey (some user)) w.rl
  match step.1 with
  | RLOutcome.limited => (HttpOut.err 429 "Too many requests", { w with rl := step.2 })
  | RLOutcome.allowed =>
    let out := controllerUpdateScore H now uid req ip w.sys
    (out.1, { sys := out.2, rl := step.2 })

/-- Row ordering realised by `(score DESC, lastUpdated ASC)`: higher score
first, ties by earlier lastUpdated. -/
def rowOrdered (a b : ScoreRow) : Prop :=
  b.score < a.score ∨ (a.score = b.score ∧ a.lastUpdated ≤ b.lastUpdated)

/-- The same ordering on ranking entries. -/
def entryOrdered (a b : Entry) : Prop :=
  b.score < a.score ∨ (a.score = b.score ∧ a.lastUpdated ≤ b.lastUpdated)

/-- A ranking is sorted by score descending with ties broken by earlier
lastUpdated first. -/
def entrySorted (l : List Entry) : Prop :=
  l.Pairwise entryOrdered

/-- Invariant on the `scoreboard:top10` cache key: whatever it holds is a
sorted ranking of at most 10 entries. -/
def cacheOK (sys : Sys) : Prop :=
  ∀ c, sys.cacheTop = some c → entrySorted c ∧ c.length ≤ 10

/-- A well-formed update request for identity uid with fresh actionId
derived from uid and k: distinct nonce per (uid, k), valid hash. -/
def mkReq (H : String → String) (uid : String) (k : Nat) : ScoreUpdateRequest :=
  { actionId := uid ++ toString k, scoreIncrement := 1, timestamp := 7,
    actionHash := H (hashPayload (uid ++ toString k) 1 7) }

/-- Sequential run of authenticated update requests through the full
pipeline, collecting the HTTP outcomes. -/
def runSeq (H : String → String) :
    List (String × ScoreUpdateRequest) → World → List HttpOut × World
  | [], w => ([], w)
  | (uid, req) :: rest, w =>
    let o := handleUpdate H 50 uid uid (uid ++ "@example.com") req none w
    let r := runSeq H rest o.2
    (o.1 :: r.1, r.2)

/-- Number of successful responses belonging to identity uid. -/
def okCount (uid : String) (outs : List HttpOut) : Nat :=
  outs.countP (fun o =>
    match o with
    | HttpOut.ok _ r => r.userId == uid
    | HttpOut.err _ _ => false)

end Scoreboard

section DemoInputs

open Scoreboard

/-- Demo digest function standing in for SHA-256 in concrete evaluations:
injective and executable. -/
def hashDemo (s : String) : String := "#" ++ s

/-- A small store: one user with a score row, empty action log. -/
def dbDemo : DB :=
  { scores := [{ userId := "u1", score := 40, lastUpdated := 3 }],
    actionLog := [],
    users := [{ id := "u1", username := "alice" }] }

/-- A well-formed request for dbDemo under hashDemo. -/
def reqDemo : ScoreUpdateRequest :=
  { actionId := "a1", scoreIncrement := 5, timestamp := 99,
    actionHash := hashDemo (hashPayload "a1" 5 99) }

/-- The store after reqDemo is accepted at time 50. -/
def dbDemoAfter : DB :=
  { scores := [{ userId := "u1", score := 45, lastUpdated := 50 }],
    actionLog := [{ userId := "u1", actionId := "a1", scoreIncrement := 5,
                    actionHash := hashDemo (hashPayload "a1" 5 99),
                    timestamp := 99, ipAddress := none }],
    users := [{ id := "u1", username := "alice" }] }

/-- dbDemo wrapped in a system state with empty caches. -/
def sysDemo : Sys :=
  { db := dbDemo, cacheTop := none, cacheUser := [], broadcasts := [] }

/-- A store in which the actionId of reqDemo is already consumed. -/
def dbDup : DB :=
  { dbDemo with
      actionLog := [{ userId := "u1", actionId := "a1", scoreIncrement := 5,
                      actionHash := hashDemo (hashPayload "a1" 5 99),
                      timestamp := 99, ipAddress := none }] }

/-- dbDup wrapped in a system state. -/
def sysDup : Sys :=
  { db := dbDup, cacheTop := none, cacheUser := [], broadcasts := [] }

/-- A request whose timestamp is far older than the 300-second freshness
window but whose hash is valid for the stale timestamp. -/
def reqStale : ScoreUpdateRequest :=
  { actionId := "a9", scoreIncrement := 5, timestamp := 1,
    actionHash := hashDemo (hashPayload "a9" 5 1) }

/-- A request presenting the consumed actionId of dbDup together with a
hash that matches no payload. -/
def reqDupBad : ScoreUpdateRequest :=
  { actionId := "a1", scoreIncrement := 5, timestamp := 99,
    actionHash := "bogus" }

/-- Two identities tied at score 100, the row of alice older (5) than that of bob
(7). -/
def dbTie : DB :=
  { scores := [{ userId := "alice", score := 100, lastUpdated := 5 },
               { userId := "bob", score := 100, lastUpdated := 7 }],
    actionLog := [],
    users := [{ id := "alice", username := "alice" },
              { id := "bob", username := "bob" }] }

/-- dbTie with the score of alice present in the user-score cache (cache-hit
path of getUserScore). -/
def sysTieHit : Sys :=
  { db := dbTie, cacheTop := none, cacheUser := [("alice", 100)], broadcasts := [] }

/-- dbTie with an empty user-score cache (cache-miss path). -/
def sysTieMiss : Sys :=
  { db := dbTie, cacheTop := none, cacheUser := [], broadcasts := [] }

/-- Eleven valid updates in one rate window: five from bob, then six from
alice, all with distinct nonces and valid hashes. -/
def calls11 : List (String × ScoreUpdateRequest) :=
  ((List.range 5).map (fun k => ("bob", mkReq hashDemo "bob" k))) ++
  ((List.range 6).map (fun k => ("alice", mkReq hashDemo "alice" k)))

/-- Initial world for the rate-limit trace: the two identities of dbTie, empty
caches, reachable rate-limit store with no counters. -/
def w0 : World :=
  { sys := { db := dbTie, cacheTop := none, cacheUser := [], broadcasts := [] },
    rl := { counters := [], reachable := true } }

end DemoInputs

section Claims

open Scoreboard

/-- A consumed actionId short-circuits updateScore with duplicateAction. -/
theorem updateScore_dup {H : String → String} {now : Nat} {uid : String}
    {req : ScoreUpdateRequest} {ip : Option String} {db : DB}
    (hd : hasAction db req.actionId = true) :
    updateScore H now uid req ip db = Except.error UpdateError.duplicateAction := by
  simp [updateScore, hd]

/-- A successful transaction appends exactly the action-log row of the request
and leaves earlier rows in place. -/
theorem txUpdate_ok_log {now : Nat} {uid : String} {req : ScoreUpdateRequest}
    {ip : Option String} {db db1 : DB} {updated : ScoreRow}
    (h : txUpdate now uid req ip db = Except.ok (db1, updated)) :
    db1.actionLog = db.actionLog ++
      [{ userId := uid, actionId := req.actionId,
         scoreIncrement := req.scoreIncrement, actionHash := req.actionHash,
         timestamp := req.timestamp, ipAddress := ip }] := by
  unfold txUpdate at h
  cases hfind : findScore db uid with
  | none => rw [hfind] at h; exact absurd h (by simp)
  | some row =>
    rw [hfind] at h
    simp only at h
    split at h
    · exact absurd h (by simp)
    · obtain ⟨hdb, _⟩ := Prod.mk.injEq .. ▸ (Except.ok.injEq .. ▸ h)
      rw [← hdb]

/-- A successful updateScore passed the novelty check and committed its
transaction. -/
theorem updateScore_ok_elim {H : String → String} {now : Nat} {uid : String}
    {req : ScoreUpdateRequest} {ip : Option String} {db db1 : DB} {r : UpdateOk}
    (h : updateScore H now uid req ip db = Except.ok (db1, r)) :
    hasAction db req.actionId = false ∧
    ∃ updated, txUpdate now uid req ip db = Except.ok (db1, updated) := by
  unfold updateScore at h
  split at h
  · exact absurd h (by simp)
  · split at h
    · exact absurd h (by simp)
    · split at h
      · exact absurd h (by simp)
      · rename_i hd _ _
        split at h
        · exact absurd h (by simp)
        · rename_i db2 updated heq
          obtain ⟨hdb, _⟩ := Prod.mk.injEq .. ▸ (Except.ok.injEq .. ▸ h)
          exact ⟨Bool.of_not_eq_true hd, updated, hdb ▸ heq⟩

/-- After a success, the consumed set of actionIds grows by exactly the
accepted one. -/
theorem updateScore_ok_hasAction {H : String → String} {now : Nat} {uid : String}
    {req : ScoreUpdateRequest} {ip : Option String} {db db1 : DB} {r : UpdateOk}
    (h : updateScore H now uid req ip db = Except.ok (db1, r)) (a : String) :
    hasAction db1 a = (hasAction db a || (req.actionId == a)) := by
  obtain ⟨-, updated, htx⟩ := updateScore_ok_elim h
  have hlog := txUpdate_ok_log htx
  simp [hasAction, hlog, List.any_append]

/-- Once an actionId is consumed, no later call in a run is accepted with
it. -/
theorem acceptedWith_zero {H : String → String} {n : String} :
    ∀ (calls : List Call) (db : DB), hasAction db n = true →
      acceptedWith H db n calls = 0 := by
  intro calls
  induction calls with
  | nil => intro db _; rfl
  | cons c rest ih =>
    intro db hd
    simp only [acceptedWith]
    cases hres : updateScore H c.now c.userId c.req c.ip db with
    | error e => exact ih db hd
    | ok p =>
      obtain ⟨db1, r⟩ := p
      have hfresh := (updateScore_ok_elim hres).1
      have hne : ¬c.req.actionId = n := by
        intro he; rw [he] at hfresh; rw [hfresh] at hd; exact Bool.noConfusion hd
      have hmono : hasAction db1 n = true := by
        rw [updateScore_ok_hasAction hres n, hd, Bool.true_or]
      simp [hne, ih db1 hmono]

/-- In any sequential run, at most one call carrying a given actionId is
accepted. -/
theorem acceptedWith_le_one {H : String → String} {n : String} :
    ∀ (calls : List Call) (db : DB), acceptedWith H db n calls ≤ 1 := by
  intro calls
  induction calls with
  | nil => intro db; exact Nat.zero_le 1
  | cons c rest ih =>
    intro db
    simp only [acceptedWith]
    cases hres : updateScore H c.now c.userId c.req c.ip db with
    | error e => exact ih db
    | ok p =>
      obtain ⟨db1, r⟩ := p
      by_cases he : c.req.actionId = n
      · have hmem : hasAction db1 n = true := by
          rw [updateScore_ok_hasAction hres n, ← he]
          simp
        simp [he, acceptedWith_zero rest db1 hmem]
      · simp only [he]
        simpa using ih db1

/-- Claim C1: for every nonce n, across any number of updateScore calls
carrying n the increment is applied at most once; once n appears in the
action log every subsequent call presenting n fails with duplicateAction
(the transaction rolled back, so the score is unchanged); and immediately
retrying an identical accepted payload yields duplicateAction, never a
second application. -/
theorem scoreboard_C1_theorem (H : String → String) (n : String) :
    (∀ (db : DB) (c : Call), c.req.actionId = n → hasAction db n = true →
       updateScore H c.now c.userId c.req c.ip db =
         Except.error UpdateError.duplicateAction) ∧
    (∀ (db : DB) (calls : List Call), acceptedWith H db n calls ≤ 1) ∧
    (∀ (db db1 : DB) (c c2 : Call) (r : UpdateOk),
       c2.req.actionId = c.req.actionId →
       updateScore H c.now c.userId c.req c.ip db = Except.ok (db1, r) →
       updateScore H c2.now c2.userId c2.req c2.ip db1 =
         Except.error UpdateError.duplicateAction) := by
  refine ⟨?_, ?_, ?_⟩
  · intro db c he hd
    exact updateScore_dup (he ▸ hd)
  · intro db calls
    exact acceptedWith_le_one calls db
  · intro db db1 c c2 r he hok
    have hmem : hasAction db1 c2.req.actionId = true := by
      rw [he, updateScore_ok_hasAction hok]
      simp
    exact updateScore_dup hmem

/-- Witness for scoreboard_C1_theorem: the consumed nonce of dbDup is
rejected; a run retrying reqDemo twice accepts it at most once; the exact
retry of the accepted reqDemo against dbDemoAfter is a duplicate. -/
theorem scoreboard_C1_witness :
    updateScore hashDemo 50 "u1" reqDemo none dbDup =
      Except.error UpdateError.duplicateAction ∧
    acceptedWith hashDemo dbDemo "a1"
      [{ now := 50, userId := "u1", req := reqDemo, ip := none },
       { now := 60, userId := "u1", req := reqDemo, ip := none }] ≤ 1 ∧
    updateScore hashDemo 60 "u1" reqDemo none dbDemoAfter =
      Except.error UpdateError.duplicateAction := by
  refine ⟨?_, ?_, ?_⟩
  · exact (scoreboard_C1_theorem hashDemo "a1").1 dbDup
      { now := 50, userId := "u1", req := reqDemo, ip := none } rfl (by decide)
  · exact (scoreboard_C1_theorem hashDemo "a1").2.1 dbDemo
      [{ now := 50, userId := "u1", req := reqDemo, ip := none },
       { now := 60, userId := "u1", req := reqDemo, ip := none }]
  · exact (scoreboard_C1_theorem hashDemo "a1").2.2 dbDemo dbDemoAfter
      { now := 50, userId := "u1", req := reqDemo, ip := none }
      { now := 60, userId := "u1", req := reqDemo, ip := none }
      { userId := "u1", newScore := 45, rank := 1 } rfl (by rfl)

/-- Claim C2, counterexample.  The claim states that updateScore accepts a
token only if its mac equals `H(secret || nonce || increment || issued_at)`
under the server secret, and rejects every other token.  In the source the
digested string is `${actionId}-${scoreIncrement}-${timestamp}` with no
secret (ScoreboardService.ts:160-163): under the digest function hashDemo
and the secret value s3cr3t, the hash of reqDemo differs from the spec MAC yet the
request is accepted and the score mutated. -/
theorem scoreboard_C2_counterexample :
    reqDemo.actionHash ≠
      specMac hashDemo "s3cr3t" reqDemo.actionId reqDemo.scoreIncrement reqDemo.timestamp ∧
    updateScore hashDemo 50 "u1" reqDemo none dbDemo =
      Except.ok (dbDemoAfter, { userId := "u1", newScore := 45, rank := 1 }) := by
  exact ⟨by decide, by rfl⟩

/-- Claim C2 as amended: updateScore accepts an action token only if its
actionHash equals H of `${actionId}-${scoreIncrement}-${timestamp}` — no
server secret enters the digest and the comparison is an ordinary string
equality; whenever the presented hash differs from that digest and the
nonce is fresh, the request is rejected with INVALID_ACTION_HASH and no
state is mutated. -/
theorem scoreboard_C2_theorem (H : String → String) (now : Nat) (uid : String)
    (req : ScoreUpdateRequest) (ip : Option String) (sys : Sys)
    (hm : missingFields req = false)
    (hd : hasAction sys.db req.actionId = false)
    (hh : req.actionHash ≠ generateActionHash H req.actionId req.scoreIncrement req.timestamp) :
    controllerUpdateScore H now uid req ip sys =
      (HttpOut.err 400 "INVALID_ACTION_HASH", sys) := by
  simp [controllerUpdateScore, updateScore, hm, hd, hh, errorCodeOf]

/-- Witness for scoreboard_C2_theorem at a concrete bad-hash request. -/
theorem scoreboard_C2_witness :
    controllerUpdateScore hashDemo 50 "u1"
        { actionId := "a1", scoreIncrement := 5, timestamp := 99, actionHash := "zzz" }
        none sysDemo =
      (HttpOut.err 400 "INVALID_ACTION_HASH", sysDemo) := by
  exact scoreboard_C2_theorem hashDemo 50 "u1"
    { actionId := "a1", scoreIncrement := 5, timestamp := 99, actionHash := "zzz" }
    none sysDemo (by decide) (by decide) (by decide)

/-- Claim C3, failing input.  The claim states that a token whose issue
time is further than the 300-second freshness window from `now` is
rejected; the source performs no freshness comparison at all
(ScoreboardService.ts:148-172 validates only nonce, hash and bounds), so a
token issued at time 1 is accepted at time 1000000 and the score is
mutated. -/
theorem scoreboard_C3_bug :
    300 < 1000000 - reqStale.timestamp ∧
    updateScore hashDemo 1000000 "u1" reqStale none dbDemo =
      Except.ok
        ({ scores := [{ userId := "u1", score := 45, lastUpdated := 1000000 }],
           actionLog := [{ userId := "u1", actionId := "a9", scoreIncrement := 5,
                           actionHash := hashDemo (hashPayload "a9" 5 1),
                           timestamp := 1, ipAddress := none }],
           users := [{ id := "u1", username := "alice" }] },
         { userId := "u1", newScore := 45, rank := 1 }) := by
  exact ⟨by decide, by rfl⟩

/-- Claim C4, failing input.  On the cache-hit path getUserScore computes
the tie-break against `new Date()` (ScoreboardService.ts:79) instead of the
own last_updated of the identity: in dbTie with now = 10, the cache-hit rank of alice
is 3, while the claimed formula `1 + count(score > s or (score = s and
last_updated < t_alice))` yields 1, as the cache-miss path does. -/
theorem scoreboard_C4_bug :
    (getUserScore 10 "alice" sysTieHit).1 =
      some { userId := "alice", username := "alice", score := 100, rank := 3, totalUsers := 2 } ∧
    (getUserScore 10 "alice" sysTieMiss).1 =
      some { userId := "alice", username := "alice", score := 100, rank := 1, totalUsers := 2 } ∧
    rankOf dbTie 100 5 = 1 := by
  exact ⟨by rfl, by rfl, by rfl⟩

/-- Claim C6, failing input.  The claim (and the own
API_SPECIFICATION.md) give HTTP 409 for DUPLICATE_ACTION, but
ScoreboardController.updateScore replies with status 400 for every service
error (ScoreboardController.ts:86): a request whose actionId is already
logged receives status 400 with code DUPLICATE_ACTION. -/
theorem scoreboard_C6_bug :
    controllerUpdateScore hashDemo 50 "u1" reqDemo none sysDup =
      (HttpOut.err 400 "DUPLICATE_ACTION", sysDup) := by
  rfl

/-- Claim C7, counterexample.  The claim puts the MAC check before the
nonce-novelty check; in the source the action-id lookup runs first
(ScoreboardService.ts:151-157 before 160-167): a request presenting a
consumed nonce together with a hash matching no payload is rejected as
DUPLICATE_ACTION, where the claimed order would short-circuit at the MAC
with INVALID_ACTION_HASH. -/
theorem scoreboard_C7_counterexample :
    reqDupBad.actionHash ≠
      generateActionHash hashDemo reqDupBad.actionId reqDupBad.scoreIncrement reqDupBad.timestamp ∧
    updateScore hashDemo 50 "u1" reqDupBad none dbDup =
      Except.error UpdateError.duplicateAction := by
  exact ⟨by decide, by rfl⟩

/-- Claim C7 as amended: the update pipeline performs its checks in the
order rate limit (middleware), field presence, nonce novelty, MAC,
increment bounds, short-circuiting on the first failure; no freshness check
is performed.  Each conjunct states that a request failing one check is
answered with the error of that check and that no later stage runs (the
scoreboard state is untouched). -/
theorem scoreboard_C7_amended (H : String → String) (now : Nat)
    (uid un em : String) (req : ScoreUpdateRequest) (ip : Option String) (w : World) :
    (10 ≤ getRateLimit w.rl (scoreUpdateKey (some (authUser uid un em))) →
       handleUpdate H now uid un em req ip w = (HttpOut.err 429 "Too many requests", w)) ∧
    (getRateLimit w.rl (scoreUpdateKey (some (authUser uid un em))) < 10 →
       missingFields req = true →
       (handleUpdate H now uid un em req ip w).1 = HttpOut.err 400 "MISSING_FIELDS" ∧
       (handleUpdate H now uid un em req ip w).2.sys = w.sys) ∧
    (getRateLimit w.rl (scoreUpdateKey (some (authUser uid un em))) < 10 →
       missingFields req = false →
       hasAction w.sys.db req.actionId = true →
       (handleUpdate H now uid un em req ip w).1 = HttpOut.err 400 "DUPLICATE_ACTION" ∧
       (handleUpdate H now uid un em req ip w).2.sys = w.sys) ∧
    (getRateLimit w.rl (scoreUpdateKey (some (authUser uid un em))) < 10 →
       missingFields req = false →
       hasAction w.sys.db req.actionId = false →
       req.actionHash ≠ generateActionHash H req.actionId req.scoreIncrement req.timestamp →
       (handleUpdate H now uid un em req ip w).1 = HttpOut.err 400 "INVALID_ACTION_HASH" ∧
       (handleUpdate H now uid un em req ip w).2.sys = w.sys) ∧
    (getRateLimit w.rl (scoreUpdateKey (some (authUser uid un em))) < 10 →
       missingFields req = false →
       hasAction w.sys.db req.actionId = false →
       req.actionHash = generateActionHash H req.actionId req.scoreIncrement req.timestamp →
       (req.scoreIncrement < 1 ∨ 1000 < req.scoreIncrement) →
       (handleUpdate H now uid un em req ip w).1 = HttpOut.err 400 "INVALID_SCORE_INCREMENT" ∧
       (handleUpdate H now uid un em req ip w).2.sys = w.sys) := by
  refine ⟨fun hrl => ?_, fun hrl hm => ?_, fun hrl hm hd => ?_,
          fun hrl hm hd hh => ?_, fun hrl hm hd hh hinc => ?_⟩
  · simp [handleUpdate, rateLimitStep, hrl]
  · simp [handleUpdate, rateLimitStep, Nat.not_le.mpr hrl, controllerUpdateScore, hm]
  · simp [handleUpdate, rateLimitStep, Nat.not_le.mpr hrl, controllerUpdateScore, hm,
      updateScore, hd, errorCodeOf]
  · simp [handleUpdate, rateLimitStep, Nat.not_le.mpr hrl, controllerUpdateScore, hm,
      updateScore, hd, hh, errorCodeOf]
  · simp [handleUpdate, rateLimitStep, Nat.not_le.mpr hrl, controllerUpdateScore, hm,
      updateScore, hd, hh, hinc, errorCodeOf]

/-- Witness for scoreboard_C7_amended: the rate-limited branch at a
saturated counter and the duplicate branch at dbDup. -/
theorem scoreboard_C7_witness :
    handleUpdate hashDemo 50 "u1" "alice" "a@x" reqDemo none
        { sys := sysDemo,
          rl := { counters := [("rate_limit:rate_limit:score_update:anonymous", 10)],
                  reachable := true } } =
      (HttpOut.err 429 "Too many requests",
       { sys := sysDemo,
         rl := { counters := [("rate_limit:rate_limit:score_update:anonymous", 10)],
                 reachable := true } }) ∧
    (handleUpdate hashDemo 50 "u1" "alice" "a@x" reqDemo none
        { sys := sysDup, rl := { counters := [], reachable := true } }).1 =
      HttpOut.err 400 "DUPLICATE_ACTION" := by
  refine ⟨?_, ?_⟩
  · exact (scoreboard_C7_amended hashDemo 50 "u1" "alice" "a@x" reqDemo none
      { sys := sysDemo,
        rl := { counters := [("rate_limit:rate_limit:score_update:anonymous", 10)],
                reachable := true } }).1 (by decide)
  · exact ((scoreboard_C7_amended hashDemo 50 "u1" "alice" "a@x" reqDemo none
      { sys := sysDup, rl := { counters := [], reachable := true } }).2.2.1
      (by decide) (by decide) (by decide)).1

/-- Claim C10: when the shared cache is unreachable, getRateLimit returns 0
(main.ts:1237-1246 catches and returns 0), so the
`currentCount >= maxRequests` test never fires for a positive limit, the
increment is swallowed (main.ts:1248-1259), and the whole update pipeline
proceeds exactly as without a rate limiter: rate limits are unenforced and
no request is rejected with 429 because of the cache failure. -/
theorem scoreboard_C10_theorem (maxRequests : Nat) (key k : String) (c : RLState)
    (hdown : c.reachable = false) (hpos : 0 < maxRequests) :
    getRateLimit c k = 0 ∧
    rateLimitStep maxRequests key c = (RLOutcome.allowed, c) ∧
    ∀ (H : String → String) (now : Nat) (uid un em : String)
      (req : ScoreUpdateRequest) (ip : Option String) (sys : Sys),
      handleUpdate H now uid un em req ip { sys := sys, rl := c } =
        ((controllerUpdateScore H now uid req ip sys).1,
         { sys := (controllerUpdateScore H now uid req ip sys).2, rl := c }) := by
  have h0 : ∀ k2, getRateLimit c k2 = 0 := by
    intro k2; simp [getRateLimit, hdown]
  have hstep : ∀ key2, rateLimitStep maxRequests key2 c = (RLOutcome.allowed, c) := by
    intro key2
    simp [rateLimitStep, h0, Nat.not_le.mpr hpos, incrementRateLimit, hdown]
  refine ⟨h0 k, hstep key, ?_⟩
  intro H now uid un em req ip sys
  have hstep10 : rateLimitStep 10 (scoreUpdateKey (some (authUser uid un em))) c =
      (RLOutcome.allowed, c) := by
    simp [rateLimitStep, h0, incrementRateLimit, hdown]
  simp [handleUpdate, hstep10]

/-- Witness for scoreboard_C10_theorem: an unreachable cache whose stale
counter is far over the limit still lets a request through. -/
theorem scoreboard_C10_witness :
    getRateLimit { counters := [("rate_limit:rate_limit:score_update:anonymous", 999)],
                   reachable := false } "rate_limit:score_update:anonymous" = 0 ∧
    rateLimitStep 10 "rate_limit:score_update:anonymous"
        { counters := [("rate_limit:rate_limit:score_update:anonymous", 999)],
          reachable := false } =
      (RLOutcome.allowed,
       { counters := [("rate_limit:rate_limit:score_update:anonymous", 999)],
         reachable := false }) ∧
    ∀ (H : String → String) (now : Nat) (uid un em : String)
      (req : ScoreUpdateRequest) (ip : Option String) (sys : Sys),
      handleUpdate H now uid un em req ip
          { sys := sys,
            rl := { counters := [("rate_limit:rate_limit:score_update:anonymous", 999)],
                    reachable := false } } =
        ((controllerUpdateScore H now uid req ip sys).1,
         { sys := (controllerUpdateScore H now uid req ip sys).2,
           rl := { counters := [("rate_limit:rate_limit:score_update:anonymous", 999)],
                   reachable := false } }) := by
  exact scoreboard_C10_theorem 10 "rate_limit:score_update:anonymous"
    "rate_limit:score_update:anonymous"
    { counters := [("rate_limit:rate_limit:score_update:anonymous", 999)],
      reachable := false } rfl (by decide)

/-- scoreLE decides rowOrdered. -/
theorem scoreLE_true_iff {a b : ScoreRow} : scoreLE a b = true ↔ rowOrdered a b := by
  simp [scoreLE, rowOrdered]

/-- rowOrdered is total. -/
theorem rowOrdered_total (a b : ScoreRow) : rowOrdered a b ∨ rowOrdered b a := by
  unfold rowOrdered
  rcases Int.lt_trichotomy a.score b.score with h | h | h
  · exact Or.inr (Or.inl h)
  · rcases Nat.le_total a.lastUpdated b.lastUpdated with h2 | h2
    · exact Or.inl (Or.inr ⟨h, h2⟩)
    · exact Or.inr (Or.inr ⟨h.symm, h2⟩)
  · exact Or.inl (Or.inl h)

/-- rowOrdered is transitive. -/
theorem rowOrdered_trans {a b c : ScoreRow} (h1 : rowOrdered a b)
    (h2 : rowOrdered b c) : rowOrdered a c := by
  unfold rowOrdered at h1 h2 ⊢
  rcases h1 with h1 | ⟨h1, h1t⟩ <;> rcases h2 with h2 | ⟨h2, h2t⟩
  · exact Or.inl (h2.trans h1)
  · exact Or.inl (h2 ▸ h1)
  · exact Or.inl (h1 ▸ h2)
  · exact Or.inr ⟨h1.trans h2, h1t.trans h2t⟩

/-- Elements produced by insertScore come from the inserted row or the
original list. -/
theorem insertScore_mem {r y : ScoreRow} :
    ∀ {l : List ScoreRow}, y ∈ insertScore r l → y = r ∨ y ∈ l := by
  intro l
  induction l with
  | nil => intro h; simpa [insertScore] using h
  | cons x xs ih =>
    intro h
    by_cases hle : scoreLE r x = true
    · rw [insertScore, if_pos hle] at h
      rcases List.mem_cons.mp h with h | h
      · exact Or.inl h
      · exact Or.inr h
    · rw [insertScore, if_neg hle] at h
      rcases List.mem_cons.mp h with h | h
      · exact Or.inr (h ▸ List.mem_cons_self x xs)
      · rcases ih h with h2 | h2
        · exact Or.inl h2
        · exact Or.inr (List.mem_cons_of_mem x h2)

/-- insertScore preserves sortedness. -/
theorem insertScore_pairwise {r : ScoreRow} :
    ∀ {l : List ScoreRow}, l.Pairwise rowOrdered →
      (insertScore r l).Pairwise rowOrdered := by
  intro l
  induction l with
  | nil => intro _; simp [insertScore]
  | cons x xs ih =>
    intro h
    rcases List.pairwise_cons.mp h with ⟨hx, hxs⟩
    by_cases hle : scoreLE r x = true
    · rw [insertScore, if_pos hle]
      refine List.pairwise_cons.mpr ⟨?_, h⟩
      intro y hy
      rcases List.mem_cons.mp hy with hy | hy
      · exact hy ▸ scoreLE_true_iff.mp hle
      · exact rowOrdered_trans (scoreLE_true_iff.mp hle) (hx y hy)
    · rw [insertScore, if_neg hle]
      have hxr : rowOrdered x r := by
        rcases rowOrdered_total r x with h2 | h2
        · exact absurd (scoreLE_true_iff.mpr h2) hle
        · exact h2
      refine List.pairwise_cons.mpr ⟨?_, ih hxs⟩
      intro y hy
      rcases insertScore_mem hy with h2 | h2
      · exact h2 ▸ hxr
      · exact hx y h2

/-- The ordered scan is sorted. -/
theorem sortScores_pairwise : ∀ (l : List ScoreRow),
    (sortScores l).Pairwise rowOrdered := by
  intro l
  induction l with
  | nil => exact List.Pairwise.nil
  | cons x xs ih => exact insertScore_pairwise ih

/-- Every entry produced by withRanks carries the score and lastUpdated of
one of the input rows. -/
theorem withRanks_mem {db : DB} {e : Entry} :
    ∀ {rows : List ScoreRow} {i : Nat}, e ∈ withRanks db i rows →
      ∃ r, r ∈ rows ∧ e.score = r.score ∧ e.lastUpdated = r.lastUpdated := by
  intro rows
  induction rows with
  | nil => intro i h; simp [withRanks] at h
  | cons x xs ih =>
    intro i h
    unfold withRanks at h
    rcases List.mem_cons.mp h with h | h
    · exact ⟨x, List.mem_cons_self x xs, by rw [h], by rw [h]⟩
    · rcases ih h with ⟨r, hr, h1, h2⟩
      exact ⟨r, List.mem_cons_of_mem x hr, h1, h2⟩

/-- withRanks transports sortedness from rows to entries. -/
theorem withRanks_pairwise {db : DB} :
    ∀ {rows : List ScoreRow} {i : Nat}, rows.Pairwise rowOrdered →
      (withRanks db i rows).Pairwise entryOrdered := by
  intro rows
  induction rows with
  | nil => intro i _; exact List.Pairwise.nil
  | cons x xs ih =>
    intro i h
    rcases List.pairwise_cons.mp h with ⟨hx, hxs⟩
    unfold withRanks
    refine List.pairwise_cons.mpr ⟨?_, ih hxs⟩
    intro e he
    rcases withRanks_mem he with ⟨r, hr, h1, h2⟩
    have := hx r hr
    unfold rowOrdered at this
    unfold entryOrdered
    rw [h1, h2]
    exact this

/-- withRanks preserves length. -/
theorem withRanks_length {db : DB} :
    ∀ (rows : List ScoreRow) (i : Nat), (withRanks db i rows).length = rows.length := by
  intro rows
  induction rows with
  | nil => intro i; rfl
  | cons x xs ih => intro i; simp [withRanks, ih]

/-- The database path of getTopScores returns a sorted ranking. -/
theorem computeTop_sorted (db : DB) (limit : Nat) :
    entrySorted (computeTop db limit) := by
  unfold computeTop entrySorted
  exact withRanks_pairwise
    (List.Pairwise.sublist (List.take_sublist limit (sortScores db.scores))
      (sortScores_pairwise db.scores))

/-- The database path of getTopScores returns at most limit entries. -/
theorem computeTop_length (db : DB) (limit : Nat) :
    (computeTop db limit).length ≤ limit := by
  unfold computeTop
  rw [withRanks_length, List.length_take]
  exact Nat.min_le_left limit (sortScores db.scores).length

/-- Claim C5: whenever the scoreboard cache holds only previously computed
rankings (cacheOK), the ranking served by getTopScores(10) — the value
every endpoint returns — is sorted by score descending with ties broken by
earlier lastUpdated, has at most 10 entries, and both the read path and the
update path preserve the cache invariant. -/
theorem scoreboard_C5_theorem (sys : Sys) (h : cacheOK sys) :
    entrySorted (getTopScores sys 10).1 ∧
    (getTopScores sys 10).1.length ≤ 10 ∧
    cacheOK (getTopScores sys 10).2 ∧
    ∀ (H : String → String) (now : Nat) (uid : String)
      (req : ScoreUpdateRequest) (ip : Option String),
      cacheOK (controllerUpdateScore H now uid req ip sys).2 := by
  have hread : entrySorted (getTopScores sys 10).1 ∧
      (getTopScores sys 10).1.length ≤ 10 ∧ cacheOK (getTopScores sys 10).2 := by
    unfold getTopScores
    cases hc : sys.cacheTop with
    | some c =>
      rcases h c hc with ⟨h1, h2⟩
      refine ⟨by simpa [hc] using h1, by simpa [hc] using h2, ?_⟩
      simpa [hc] using h
    | none =>
      refine ⟨by simpa [hc] using computeTop_sorted sys.db 10,
              by simpa [hc] using computeTop_length sys.db 10, ?_⟩
      intro c2 hc2
      simp [hc] at hc2
      rw [← hc2]
      exact ⟨computeTop_sorted sys.db 10, computeTop_length sys.db 10⟩
  refine ⟨hread.1, hread.2.1, hread.2.2, ?_⟩
  intro H now uid req ip
  unfold controllerUpdateScore
  split
  · exact h
  · cases hres : updateScore H now uid req ip sys.db with
    | error e => simpa [hres] using h
    | ok p =>
      obtain ⟨db1, r⟩ := p
      simp only [hres, getTopScores]
      intro c2 hc2
      simp at hc2
      rw [← hc2]
      exact ⟨computeTop_sorted db1 10, computeTop_length db1 10⟩

/-- Witness for scoreboard_C5_theorem at sysDemo (empty cache). -/
theorem scoreboard_C5_witness :
    entrySorted (getTopScores sysDemo 10).1 ∧
    (getTopScores sysDemo 10).1.length ≤ 10 ∧
    cacheOK (getTopScores sysDemo 10).2 ∧
    ∀ (H : String → String) (now : Nat) (uid : String)
      (req : ScoreUpdateRequest) (ip : Option String),
      cacheOK (controllerUpdateScore H now uid req ip sysDemo).2 := by
  exact scoreboard_C5_theorem sysDemo (by intro c hc; simp [sysDemo] at hc)

/-- A successful transaction updates exactly the score row of the caller. -/
theorem txUpdate_ok_elim {now : Nat} {uid : String} {req : ScoreUpdateRequest}
    {ip : Option String} {db db1 : DB} {updated : ScoreRow}
    (h : txUpdate now uid req ip db = Except.ok (db1, updated)) :
    ∃ row, findScore db uid = some row ∧
      updated = { row with score := row.score + req.scoreIncrement, lastUpdated := now } ∧
      db1.scores = db.scores.map (fun r => if r.userId == uid then updated else r) := by
  unfold txUpdate at h
  cases hfind : findScore db uid with
  | none => rw [hfind] at h; exact absurd h (by simp)
  | some row =>
    rw [hfind] at h
    simp only at h
    split at h
    · exact absurd h (by simp)
    · obtain ⟨hdb, hupd⟩ := Prod.mk.injEq .. ▸ (Except.ok.injEq .. ▸ h)
      exact ⟨row, rfl, hupd.symm, by rw [← hdb, ← hupd]⟩

/-- Updating the matching row in place is visible to a later lookup. -/
theorem find?_map_update {uid : String} {upd : ScoreRow}
    (hu : (upd.userId == uid) = true) :
    ∀ {l : List ScoreRow} {row : ScoreRow},
      l.find? (fun r => r.userId == uid) = some row →
      (l.map (fun r => if r.userId == uid then upd else r)).find?
        (fun r => r.userId == uid) = some upd := by
  intro l
  induction l with
  | nil => intro row h; exact absurd h (by simp)
  | cons x xs ih =>
    intro row h
    by_cases hx : (x.userId == uid) = true
    · rw [List.map_cons, if_pos hx]
      exact @List.find?_cons_of_pos _ (fun r => r.userId == uid) upd _ hu
    · rw [@List.find?_cons_of_neg _ (fun r => r.userId == uid) x xs hx] at h
      rw [List.map_cons, if_neg hx,
        @List.find?_cons_of_neg _ (fun r => r.userId == uid) x _ hx]
      exact ih h

/-- Claim C8: the score mutation and the action-log insertion happen in one
transaction.  If the service fails — including a transaction abort — the
controller replies with the mapped error and the whole system state (store,
caches, broadcasts) is exactly the one before the request; if the service
succeeds, the action log grew by exactly the entry of the request and the
score row of the caller was incremented in the same committed store. -/
theorem scoreboard_C8_theorem (H : String → String) (now : Nat) (uid : String)
    (req : ScoreUpdateRequest) (ip : Option String) (sys : Sys)
    (hm : missingFields req = false) :
    (∀ e, updateScore H now uid req ip sys.db = Except.error e →
       controllerUpdateScore H now uid req ip sys =
         (HttpOut.err 400 (errorCodeOf e), sys)) ∧
    (∀ db1 r, updateScore H now uid req ip sys.db = Except.ok (db1, r) →
       db1.actionLog = sys.db.actionLog ++
         [{ userId := uid, actionId := req.actionId,
            scoreIncrement := req.scoreIncrement, actionHash := req.actionHash,
            timestamp := req.timestamp, ipAddress := ip }] ∧
       ∃ row, findScore sys.db uid = some row ∧
         findScore db1 uid =
           some { row with score := row.score + req.scoreIncrement,
                           lastUpdated := now }) := by
  constructor
  · intro e he
    simp [controllerUpdateScore, hm, he]
  · intro db1 r hok
    obtain ⟨-, updated, htx⟩ := updateScore_ok_elim hok
    refine ⟨txUpdate_ok_log htx, ?_⟩
    obtain ⟨row, hfind, hupd, hscores⟩ := txUpdate_ok_elim htx
    have hrowid : (row.userId == uid) = true := by
      have h2 := hfind
      unfold findScore at h2
      exact @List.find?_some _ (fun r => r.userId == uid) row sys.db.scores h2
    have huid : (updated.userId == uid) = true := by rw [hupd]; exact hrowid
    refine ⟨row, hfind, ?_⟩
    have := find?_map_update huid hfind
    unfold findScore
    rw [hscores, this, hupd]

/-- Witness for scoreboard_C8_theorem: the abort branch at the consumed
nonce of sysDup leaves the state untouched, and the commit branch at
sysDemo shows both effects. -/
theorem scoreboard_C8_witness :
    controllerUpdateScore hashDemo 50 "u1" reqDemo none sysDup =
      (HttpOut.err 400 (errorCodeOf UpdateError.duplicateAction), sysDup) ∧
    (dbDemoAfter.actionLog = dbDemo.actionLog ++
       [{ userId := "u1", actionId := reqDemo.actionId,
          scoreIncrement := reqDemo.scoreIncrement, actionHash := reqDemo.actionHash,
          timestamp := reqDemo.timestamp, ipAddress := none }] ∧
     ∃ row, findScore dbDemo "u1" = some row ∧
       findScore dbDemoAfter "u1" =
         some { row with score := row.score + reqDemo.scoreIncrement,
                         lastUpdated := 50 }) := by
  constructor
  · exact (scoreboard_C8_theorem hashDemo 50 "u1" reqDemo none sysDup (by decide)).1
      UpdateError.duplicateAction (by rfl)
  · exact (scoreboard_C8_theorem hashDemo 50 "u1" reqDemo none sysDemo (by decide)).2
      dbDemoAfter { userId := "u1", newScore := 45, rank := 1 } (by rfl)

/-- Claim C9, failing input.  The score-update rate limiter reads
`(request as any).user?.id` (rateLimit.ts:71) while the auth middleware
attaches `{userId, username, email}` (auth.ts:32-36), so every identity
falls back to the key `rate_limit:score_update:anonymous` and all
identities share one counter.  In the trace calls11 — five valid updates
from bob followed by six from alice, all distinct nonces and valid hashes
within one window — the sixth request of alice is answered 429 although she made
only six requests, only five of her updates are accepted, and the run ends
with the single shared counter at 10. -/
theorem scoreboard_C9_bug :
    calls11.countP (fun c => c.1 == "alice") = 6 ∧
    okCount "alice" (runSeq hashDemo calls11 w0).1 = 5 ∧
    (runSeq hashDemo calls11 w0).1.getLast? =
      some (HttpOut.err 429 "Too many requests") ∧
    (runSeq hashDemo calls11 w0).2.rl.counters =
      [("rate_limit:rate_limit:score_update:anonymous", 10)] := by
  exact ⟨by rfl, by rfl, by rfl, by rfl⟩

end Claims
